import Mathlib

/-!
Vita3K renderer state: capability model and backend defaults

A shallow embedding of `features/state.h` (`FeatureState`) and of the
non-virtual and default-bodied members of `renderer::State`
(`renderer/state.h`), followed by the properties established about them.
-/

namespace Vita3K

/-! ## `features/state.h` -/

/-- The twelve host capability flags of `struct FeatureState`, in declaration
order. -/
structure FeatureState where
  support_shader_interlock : Bool
  support_texture_barrier : Bool
  direct_fragcolor : Bool
  spirv_shader : Bool
  support_get_texture_sub_image : Bool
  preserve_f16_nan_as_u16 : Bool
  support_unknown_format : Bool
  support_rgb_attributes : Bool
  use_mask_bit : Bool
  use_rgba16_for_rgba8 : Bool
  support_memory_mapping : Bool
  use_texture_viewport : Bool
  deriving DecidableEq, Repr

namespace FeatureState

/-- The default member initialisers: every flag `false` except
`support_rgb_attributes = true`. -/
def default : FeatureState :=
  { support_shader_interlock := false
    support_texture_barrier := false
    direct_fragcolor := false
    spirv_shader := false
    support_get_texture_sub_image := false
    preserve_f16_nan_as_u16 := false
    support_unknown_format := false
    support_rgb_attributes := true
    use_mask_bit := false
    use_rgba16_for_rgba8 := false
    support_memory_mapping := false
    use_texture_viewport := false }

/-- Body: `return support_shader_interlock || support_texture_barrier || direct_fragcolor;` -/
def is_programmable_blending_supported (f : FeatureState) : Bool :=
  f.support_shader_interlock || f.support_texture_barrier || f.direct_fragcolor

/-- Body: `return (support_texture_barrier || support_shader_interlock) && !direct_fragcolor;` -/
def is_programmable_blending_need_to_bind_color_attachment (f : FeatureState) : Bool :=
  (f.support_texture_barrier || f.support_shader_interlock) && !f.direct_fragcolor

/-- Body: `return support_shader_interlock && !direct_fragcolor;` -/
def should_use_shader_interlock (f : FeatureState) : Bool :=
  f.support_shader_interlock && !f.direct_fragcolor

/-- Body: `return support_texture_barrier && !support_shader_interlock && !direct_fragcolor;` -/
def should_use_texture_barrier (f : FeatureState) : Bool :=
  f.support_texture_barrier && !f.support_shader_interlock && !f.direct_fragcolor

/-- A call of a `const` member function: the caller receives the returned
value and the object it was called on, which a `const` member cannot have
modified. -/
def callConst (p : FeatureState → Bool) (f : FeatureState) : Bool × FeatureState :=
  (p f, f)

end FeatureState

/-- The table of the derived predicates written out row by row, from the
specification: for the flags (interlock, barrier, direct_fragcolor) the values
(supported, needs colour attachment, use interlock, use barrier). -/
def blendingTable : Bool → Bool → Bool → Bool × Bool × Bool × Bool
  | false, false, false => (false, false, false, false)
  | false, false, true => (true, false, false, false)
  | false, true, false => (true, true, false, true)
  | false, true, true => (true, false, false, false)
  | true, false, false => (true, true, true, false)
  | true, false, true => (true, false, false, false)
  | true, true, false => (true, true, true, false)
  | true, true, true => (true, false, false, false)

/-- The three blending techniques of the specification, listed from most to
least preferred. -/
inductive Technique where
  | directFragcolor
  | shaderInterlock
  | textureBarrier
  deriving DecidableEq, Repr, Fintype

namespace Technique

/-- The raw support flag of a technique. -/
def supportFlag (f : FeatureState) : Technique → Bool
  | directFragcolor => f.direct_fragcolor
  | shaderInterlock => f.support_shader_interlock
  | textureBarrier => f.support_texture_barrier

/-- Whether the code selects the technique: the `direct_fragcolor` flag
itself, `should_use_shader_interlock()`, `should_use_texture_barrier()`. -/
def selected (f : FeatureState) : Technique → Bool
  | directFragcolor => f.direct_fragcolor
  | shaderInterlock => f.should_use_shader_interlock
  | textureBarrier => f.should_use_texture_barrier

/-- Position in the preference order (smaller is preferred). -/
def rank : Technique → Nat
  | directFragcolor => 0
  | shaderInterlock => 1
  | textureBarrier => 2

end Technique

/-! ## `renderer/state.h` -/

namespace renderer

/-- The scoped enumeration `enum struct Filter : int`. -/
inductive Filter where
  | NEAREST
  | BILINEAR
  | BICUBIC
  | FXAA
  | FSR
  deriving DecidableEq, Repr, Fintype

namespace Filter

/-- The enumerator values `1 << 0` … `1 << 4`. They are non-negative and far
below `2 ^ 31`, so the `int` arithmetic is that of the naturals. -/
def value : Filter → Nat
  | NEAREST => 1 <<< 0
  | BILINEAR => 1 <<< 1
  | BICUBIC => 1 <<< 2
  | FXAA => 1 <<< 3
  | FSR => 1 <<< 4

/-- All five enumerators, in declaration order. -/
def all : List Filter := [NEAREST, BILINEAR, BICUBIC, FXAA, FSR]

/-- The supported-filters bitmask of a collection of filters. No function of
`state.h` computes it (`get_supported_filters` is pure virtual); following the
comment on that member, "a bitmask with the Filter enum values of the
supported enum filters", it is the bitwise OR of the values of the filters. -/
def mask : List Filter → Nat
  | [] => 0
  | f :: fs => f.value ||| mask fs

/-- Membership test on a filter bitmask, from the specification: the filter is
reported present when `mask & value` is non-zero. -/
def inMask (m : Nat) (f : Filter) : Bool :=
  m &&& f.value != 0

end Filter

/-- The type `fs::path` is declared in a header outside the two source files.
It is a parameter of the model, together with its `operator/` applied to a
C string, the only operation of it that `State` uses. -/
structure PathOps (Path : Type) where
  append : Path → String → Path

/-- A concrete instance of `PathOps`: a path is its list of components and
`operator/` adds one component at the end. -/
def componentPaths : PathOps (List String) where
  append p c := p ++ [c]

/-- Modelled from the spec: the class template `Queue<T>` (threads/queue.h)
is not among the source files. Following the spec (an ordered queue with
blocking push and pop; a producer blocks on push only when a bounded channel
is at capacity, a consumer blocks on pop when the queue is empty; the queue is
protected by its own mutex, so an operation is one atomic step), a queue is
the list of pending items, oldest first, and its capacity. -/
structure Queue (T : Type) where
  items : List T
  maxPending : Nat
  deriving DecidableEq, Repr

namespace Queue

/-- Modelled from the spec: the empty queue of a given capacity. -/
def empty {T : Type} (maxPending : Nat) : Queue T :=
  { items := [], maxPending := maxPending }

/-- Modelled from the spec: `push` adds the item behind all pending ones;
`none` means the caller is blocked because the queue is at capacity. -/
def push {T : Type} (q : Queue T) (x : T) : Option (Queue T) :=
  if q.items.length < q.maxPending then some { q with items := q.items ++ [x] } else none

/-- Modelled from the spec: `pop` removes and returns the oldest pending
item; `none` means the caller is blocked because the queue is empty. -/
def pop {T : Type} (q : Queue T) : Option (T × Queue T) :=
  match q.items with
  | [] => none
  | x :: rest => some (x, { q with items := rest })

end Queue

/-- One completed queue operation of some thread. -/
inductive QueueOp (T : Type) where
  | push (x : T)
  | pop
  deriving DecidableEq, Repr

namespace QueueOp

/-- The items pushed by a schedule, in the order of the pushes. -/
def pushed {T : Type} : List (QueueOp T) → List T
  | [] => []
  | push x :: ops => x :: pushed ops
  | pop :: ops => pushed ops

end QueueOp

namespace Queue

/-- Modelled from the spec: an interleaving of the operations of all threads
is the list of the operations in the order in which they take the mutex.
`run` executes it and returns the final queue and the items popped, in pop
order; the result is `none` when an operation of the list is blocked at its
turn, in which case the list is not an execution of the queue. -/
def run {T : Type} (q : Queue T) : List (QueueOp T) → Option (Queue T × List T)
  | [] => some (q, [])
  | QueueOp.push x :: ops =>
    match q.push x with
    | none => none
    | some q1 => run q1 ops
  | QueueOp.pop :: ops =>
    match q.pop with
    | none => none
    | some (x, q1) =>
      match run q1 ops with
      | none => none
      | some (q2, out) => some (q2, x :: out)

end Queue

/-- The data members of `renderer::State`. `Path` is `fs::path`, `CommandList`
the element type of the command queue, and `Other` stands for the members
whose types are declared in headers outside the source files and which no
member function defined in `state.h` reads or writes (`current_backend`,
`res_multiplier`, `context`, `gxp_ptr_map`, the two condition variables and
their mutexes, `shaders_cache_hashs`). The three `const char *` members are
`none` when they hold `nullptr`. -/
structure State (Path CommandList Other : Type) where
  cache_path : Path
  log_path : Path
  shared_path : Path
  static_assets : Path
  shaders_path : Path
  shaders_log_path : Path
  base_path : Option String
  title_id : Option String
  self_name : Option String
  features : FeatureState
  disable_surface_sync : Bool
  stretch_the_display_area : Bool
  fullscreen_hd_res_pixel_perfect : Bool
  fullscreen : Bool
  command_buffer_queue : Queue CommandList
  shader_version : String
  last_scene_id : Int
  shaders_count_compiled : Nat
  programs_count_pre_compiled : Nat
  should_display : Bool
  need_page_table : Bool
  other : Other
  deriving DecidableEq, Repr

/-- A call of `map_memory` or `unmap_memory`; a `Ptr<void>` is its 32-bit
guest address. -/
inductive MemCall where
  | map (address size : Nat)
  | unmap (address : Nat)
  deriving DecidableEq, Repr

namespace MemCall

/-- The call sequence "each `map_memory` followed by its matching
`unmap_memory`" for a list of (address, size) regions. -/
def paired : List (Nat × Nat) → List MemCall
  | [] => []
  | (address, size) :: regions => map address size :: unmap address :: paired regions

end MemCall

namespace State

variable {Path CommandList Other MemState : Type}

/-- Member `get_features_mask`, default body `return 0;`. -/
def get_features_mask (_s : State Path CommandList Other) : Nat := 0

/-- Body: `disable_surface_sync = disable;` -/
def set_surface_sync_state (s : State Path CommandList Other) (disable : Bool) :
    State Path CommandList Other :=
  { s with disable_surface_sync := disable }

/-- Body: `stretch_the_display_area = enable;` -/
def set_stretch_display (s : State Path CommandList Other) (enable : Bool) :
    State Path CommandList Other :=
  { s with stretch_the_display_area := enable }

/-- Body: `fullscreen_hd_res_pixel_perfect = enable;` -/
def stretch_hd_pixel_perfect (s : State Path CommandList Other) (enable : Bool) :
    State Path CommandList Other :=
  { s with fullscreen_hd_res_pixel_perfect := enable }

/-- Body: `fullscreen = enable;` -/
def set_fullscreen (s : State Path CommandList Other) (enable : Bool) :
    State Path CommandList Other :=
  { s with fullscreen := enable }

/-- The default `map_memory`, body `return true;`. `mem` is passed by
non-const reference, so the call returns the result together with the state
and the guest memory it leaves. -/
def map_memory (s : State Path CommandList Other) (mem : MemState) (_address _size : Nat) :
    Bool × State Path CommandList Other × MemState :=
  (true, s, mem)

/-- The default `unmap_memory`, whose body is empty. The result is the state
and guest memory the call leaves when it returns normally; `none` stands for
a call that does not return normally (a rejected call), which the empty body
never produces. -/
def unmap_memory (s : State Path CommandList Other) (mem : MemState) (_address : Nat) :
    Option (State Path CommandList Other × MemState) :=
  some (s, mem)

/-- A sequence of `map_memory` / `unmap_memory` calls on one backend, run in
order with the default bodies: the values returned by the `map_memory` calls
and the final state and guest memory, or `none` if a call was rejected. -/
def memCalls (s : State Path CommandList Other) (mem : MemState) :
    List MemCall → Option (List Bool × State Path CommandList Other × MemState)
  | [] => some ([], s, mem)
  | MemCall.map address size :: calls =>
    match s.map_memory mem address size with
    | (ok, s1, mem1) =>
      match memCalls s1 mem1 calls with
      | none => none
      | some (oks, r) => some (ok :: oks, r)
  | MemCall.unmap address :: calls =>
    match s.unmap_memory mem address with
    | none => none
    | some (s1, mem1) => memCalls s1 mem1 calls

/-- Body: `return shared_path / "textures";` -/
def texture_folder (ops : PathOps Path) (s : State Path CommandList Other) : Path :=
  ops.append s.shared_path "textures"

/-- The two assignments of `set_app_paths`, in order:
`shaders_path = cache_path / "shaders" / current_title_id / current_self_name;`
`shaders_log_path = log_path / "shaderlog" / current_title_id / current_self_name;` -/
def set_app_paths (ops : PathOps Path) (s : State Path CommandList Other)
    (current_title_id current_self_name : String) : State Path CommandList Other :=
  let s1 := { s with
    shaders_path :=
      ops.append (ops.append (ops.append s.cache_path "shaders") current_title_id)
        current_self_name }
  { s1 with
    shaders_log_path :=
      ops.append (ops.append (ops.append s1.log_path "shaderlog") current_title_id)
        current_self_name }

/-- Modelled from the spec: the body of the default `State::game_start` is in
creation.cpp, which is not among the source files. Following the spec and the
comments in `state.h`, it stores the three identifying strings
(`this->base_path = base_path;` and likewise `title_id`, `self_name`) and
calls `set_app_paths(title_id, self_name)`. -/
def game_start (ops : PathOps Path) (s : State Path CommandList Other)
    (base_path title_id self_name : String) : State Path CommandList Other :=
  set_app_paths ops
    { s with base_path := some base_path, title_id := some title_id, self_name := some self_name }
    title_id self_name

end State

/-- A backend state over component-list paths, used to evaluate the member
functions on concrete data: cache root `cache`, log root `logs`, no title
started, the command queue empty with room for 8 lists. -/
def sampleState : State (List String) String Unit :=
  { cache_path := ["cache"]
    log_path := ["logs"]
    shared_path := ["shared"]
    static_assets := ["assets"]
    shaders_path := []
    shaders_log_path := []
    base_path := none
    title_id := none
    self_name := none
    features := FeatureState.default
    disable_surface_sync := false
    stretch_the_display_area := false
    fullscreen_hd_res_pixel_perfect := false
    fullscreen := false
    command_buffer_queue := Queue.empty 8
    shader_version := ""
    last_scene_id := 0
    shaders_count_compiled := 0
    programs_count_pre_compiled := 0
    should_display := false
    need_page_table := false
    other := () }

end renderer

/-! ## The capability model -/

namespace FeatureState

/-- C1. For every `FeatureState` the four derived predicates are the formulas
of the table over (interlock, barrier, direct_fragcolor), they agree with the
table written out by rows on all eight flag combinations, and the rows
(true, true, false) and (true, true, true) have the listed values whatever the
other nine flags are. -/
theorem derived_predicates_match_table (f : FeatureState) :
    (f.is_programmable_blending_supported
        = (f.support_shader_interlock || f.support_texture_barrier || f.direct_fragcolor))
    ∧ (f.is_programmable_blending_need_to_bind_color_attachment
        = ((f.support_texture_barrier || f.support_shader_interlock) && !f.direct_fragcolor))
    ∧ (f.should_use_shader_interlock = (f.support_shader_interlock && !f.direct_fragcolor))
    ∧ (f.should_use_texture_barrier
        = (f.support_texture_barrier && !f.support_shader_interlock && !f.direct_fragcolor))
    ∧ ((f.is_programmable_blending_supported,
          f.is_programmable_blending_need_to_bind_color_attachment,
          f.should_use_shader_interlock, f.should_use_texture_barrier)
        = blendingTable f.support_shader_interlock f.support_texture_barrier f.direct_fragcolor)
    ∧ (let g := { f with support_shader_interlock := true, support_texture_barrier := true,
                         direct_fragcolor := false }
       g.is_programmable_blending_supported = true
        ∧ g.is_programmable_blending_need_to_bind_color_attachment = true
        ∧ g.should_use_shader_interlock = true
        ∧ g.should_use_texture_barrier = false)
    ∧ (let g := { f with support_shader_interlock := true, support_texture_barrier := true,
                         direct_fragcolor := true }
       g.is_programmable_blending_supported = true
        ∧ g.is_programmable_blending_need_to_bind_color_attachment = false
        ∧ g.should_use_shader_interlock = false
        ∧ g.should_use_texture_barrier = false) := by
  refine ⟨rfl, rfl, rfl, rfl, ?_, ?_, ?_⟩
  · rcases f with ⟨i, b, d, _, _, _, _, _, _, _, _, _⟩
    cases i <;> cases b <;> cases d <;> rfl
  · simp [is_programmable_blending_supported,
      is_programmable_blending_need_to_bind_color_attachment, should_use_shader_interlock,
      should_use_texture_barrier]
  · simp [is_programmable_blending_supported,
      is_programmable_blending_need_to_bind_color_attachment, should_use_shader_interlock,
      should_use_texture_barrier]

/-- C2. The technique is chosen by the priority direct_fragcolor > shader
interlock > texture barrier: a technique is selected exactly when its support
flag is set and no technique of higher priority has its flag set; programmable
blending is supported exactly when exactly one technique is selected, and
unsupported exactly when none is. -/
theorem technique_priority_fallback (f : FeatureState) :
    (∀ t : Technique, Technique.selected f t = true ↔
        (Technique.supportFlag f t = true
          ∧ ∀ u : Technique, Technique.supportFlag f u = true → t.rank ≤ u.rank))
    ∧ (f.is_programmable_blending_supported = true ↔ ∃! t : Technique, Technique.selected f t = true)
    ∧ (f.is_programmable_blending_supported = false ↔ ∀ t : Technique, Technique.selected f t = false) := by
  rcases f with ⟨i, b, d, _, _, _, _, _, _, _, _, _⟩
  simp only [Technique.selected, Technique.supportFlag, is_programmable_blending_supported,
    should_use_shader_interlock, should_use_texture_barrier, ExistsUnique]
  cases i <;> cases b <;> cases d <;> decide

/-- C9. The four derived predicates depend on exactly the three blending
flags: two feature states that agree on them give the same four results,
however the other nine flags differ; calling a predicate returns the object
unchanged; and after the three flags are overwritten the predicates are the
formulas over the new values. -/
theorem predicates_depend_only_on_three_flags (f g : FeatureState)
    (hi : f.support_shader_interlock = g.support_shader_interlock)
    (hb : f.support_texture_barrier = g.support_texture_barrier)
    (hd : f.direct_fragcolor = g.direct_fragcolor) :
    (f.is_programmable_blending_supported = g.is_programmable_blending_supported
      ∧ f.is_programmable_blending_need_to_bind_color_attachment
          = g.is_programmable_blending_need_to_bind_color_attachment
      ∧ f.should_use_shader_interlock = g.should_use_shader_interlock
      ∧ f.should_use_texture_barrier = g.should_use_texture_barrier)
    ∧ ((callConst is_programmable_blending_supported f).2 = f
      ∧ (callConst is_programmable_blending_need_to_bind_color_attachment f).2 = f
      ∧ (callConst should_use_shader_interlock f).2 = f
      ∧ (callConst should_use_texture_barrier f).2 = f)
    ∧ (∀ i b d : Bool,
        let f1 := { f with support_shader_interlock := i, support_texture_barrier := b,
                           direct_fragcolor := d }
        f1.is_programmable_blending_supported = (i || b || d)
        ∧ f1.is_programmable_blending_need_to_bind_color_attachment = ((b || i) && !d)
        ∧ f1.should_use_shader_interlock = (i && !d)
        ∧ f1.should_use_texture_barrier = (b && !i && !d)) := by
  refine ⟨⟨?_, ?_, ?_, ?_⟩, ⟨rfl, rfl, rfl, rfl⟩, fun i b d => ⟨rfl, rfl, rfl, rfl⟩⟩ <;>
    simp only [is_programmable_blending_supported,
      is_programmable_blending_need_to_bind_color_attachment, should_use_shader_interlock,
      should_use_texture_barrier, hi, hb, hd]

/-- Witness for C9: the default feature state and one that differs from it in
all nine other flags agree on the three blending flags. -/
theorem predicates_depend_only_on_three_flags_witness :
    (FeatureState.default.is_programmable_blending_supported
        = (FeatureState.mk false false false true true true true false true true true
            true).is_programmable_blending_supported
      ∧ FeatureState.default.is_programmable_blending_need_to_bind_color_attachment
        = (FeatureState.mk false false false true true true true false true true true
            true).is_programmable_blending_need_to_bind_color_attachment
      ∧ FeatureState.default.should_use_shader_interlock
        = (FeatureState.mk false false false true true true true false true true true
            true).should_use_shader_interlock
      ∧ FeatureState.default.should_use_texture_barrier
        = (FeatureState.mk false false false true true true true false true true true
            true).should_use_texture_barrier)
    ∧ FeatureState.default
        ≠ FeatureState.mk false false false true true true true false true true true true :=
  ⟨(predicates_depend_only_on_three_flags FeatureState.default
      (FeatureState.mk false false false true true true true false true true true true)
      rfl rfl rfl).1, by decide⟩

/-- C10. A colour attachment has to be bound exactly when one of the two
synchronisation-based techniques is selected, and the two are never selected
together. -/
theorem attachment_iff_sync_technique (f : FeatureState) :
    f.is_programmable_blending_need_to_bind_color_attachment
        = (f.should_use_shader_interlock || f.should_use_texture_barrier)
    ∧ ¬ (f.should_use_shader_interlock = true ∧ f.should_use_texture_barrier = true) := by
  rcases f with ⟨i, b, d, _, _, _, _, _, _, _, _, _⟩
  simp only [is_programmable_blending_need_to_bind_color_attachment,
    should_use_shader_interlock, should_use_texture_barrier]
  cases i <;> cases b <;> cases d <;> decide

end FeatureState

/-! ## The backend state -/

namespace renderer

/-- Running a schedule keeps the pushed items in order: what was pending
before, followed by the pushes of the schedule, is what was popped followed by
what is still pending. -/
theorem Queue.run_preserves_order {T : Type} (ops : List (QueueOp T)) :
    ∀ (q q1 : Queue T) (out : List T), q.run ops = some (q1, out) →
      q.items ++ QueueOp.pushed ops = out ++ q1.items := by
  induction ops with
  | nil =>
    intro q q1 out h
    simp only [Queue.run, Option.some.injEq, Prod.mk.injEq] at h
    obtain ⟨rfl, rfl⟩ := h
    simp [QueueOp.pushed]
  | cons op ops ih =>
    intro q q1 out h
    cases op with
    | push x =>
      simp only [Queue.run, Queue.push] at h
      split at h
      · exact absurd h (by simp)
      · rename_i q2 hq
        split at hq
        · simp only [Option.some.injEq] at hq
          subst hq
          have := ih _ q1 out h
          simpa [QueueOp.pushed] using this
        · exact absurd hq (by simp)
    | pop =>
      simp only [Queue.run, Queue.pop] at h
      split at h
      · exact absurd h (by simp)
      · rename_i x q2 hq
        split at h
        · exact absurd h (by simp)
        · rename_i q3 out1 hrun
          simp only [Option.some.injEq, Prod.mk.injEq] at h
          obtain ⟨rfl, rfl⟩ := h
          split at hq
          · exact absurd hq (by simp)
          · rename_i y rest hitems
            simp only [Option.some.injEq, Prod.mk.injEq] at hq
            obtain ⟨rfl, rfl⟩ := hq
            have := ih _ q3 out1 hrun
            simp only at this
            simp [QueueOp.pushed, hitems, this]

/-- The default `map_memory` and `unmap_memory` never reject a call, report
success for every `map_memory`, and leave state and guest memory as they
were, whatever the sequence of calls. -/
theorem State.memCalls_default {Path CommandList Other MemState : Type}
    (s : State Path CommandList Other) (mem : MemState) (calls : List MemCall) :
    ∃ oks : List Bool, s.memCalls mem calls = some (oks, s, mem) ∧ ∀ ok ∈ oks, ok = true := by
  induction calls with
  | nil => exact ⟨[], rfl, by simp⟩
  | cons call calls ih =>
    obtain ⟨oks, h, hall⟩ := ih
    cases call with
    | map address size =>
      refine ⟨true :: oks, ?_, ?_⟩
      · simp [State.memCalls, State.map_memory, h]
      · intro ok hok
        rcases List.mem_cons.mp hok with rfl | hmem
        · rfl
        · exact hall ok hmem
    | unmap address =>
      exact ⟨oks, by simp [State.memCalls, State.unmap_memory, h], hall⟩

/-- C3. The default `game_start` leaves `shaders_path` equal to
`cache_path / "shaders" / title_id / self_name` and `shaders_log_path` equal to
`log_path / "shaderlog" / title_id / self_name`, built from the `cache_path`
and `log_path` stored when it is called, which it does not change; on the
sample state `game_start("/base", "TITLE01", "eboot.bin")` gives the paths
cache/shaders/TITLE01/eboot.bin and logs/shaderlog/TITLE01/eboot.bin. -/
theorem game_start_derives_shader_paths {Path CommandList Other : Type} (ops : PathOps Path)
    (s : State Path CommandList Other) (base_path title_id self_name : String) :
    (State.game_start ops s base_path title_id self_name).shaders_path
        = ops.append (ops.append (ops.append s.cache_path "shaders") title_id) self_name
    ∧ (State.game_start ops s base_path title_id self_name).shaders_log_path
        = ops.append (ops.append (ops.append s.log_path "shaderlog") title_id) self_name
    ∧ (State.game_start ops s base_path title_id self_name).cache_path = s.cache_path
    ∧ (State.game_start ops s base_path title_id self_name).log_path = s.log_path
    ∧ (State.game_start componentPaths sampleState "/base" "TITLE01" "eboot.bin").shaders_path
        = ["cache", "shaders", "TITLE01", "eboot.bin"]
    ∧ (State.game_start componentPaths sampleState "/base" "TITLE01" "eboot.bin").shaders_log_path
        = ["logs", "shaderlog", "TITLE01", "eboot.bin"] :=
  ⟨rfl, rfl, rfl, rfl, rfl, rfl⟩

/-- C4. Command lists leave the queue in the order they entered it: for every
capacity and every interleaving of pushes and pops that the queue can execute
from empty, the lists pushed, in push order, are exactly the lists popped, in
pop order, followed by the lists still pending; none is dropped, duplicated,
reordered or merged, and once the queue is drained the popped sequence is the
pushed sequence. -/
theorem command_queue_fifo {CommandList : Type} (maxPending : Nat)
    (ops : List (QueueOp CommandList)) (q : Queue CommandList) (popped : List CommandList)
    (h : (Queue.empty maxPending).run ops = some (q, popped)) :
    QueueOp.pushed ops = popped ++ q.items
    ∧ (q.items = [] → popped = QueueOp.pushed ops) := by
  have key := Queue.run_preserves_order ops (Queue.empty maxPending) q popped h
  simp only [Queue.empty, List.nil_append] at key
  refine ⟨key, fun hq => ?_⟩
  rw [key, hq, List.append_nil]

/-- Witness for C4: with room for two lists, pushing A and B, popping, pushing
C and popping twice pops A, B, C in that order. -/
theorem command_queue_fifo_witness :
    (Queue.empty 2).run
        [QueueOp.push "A", QueueOp.push "B", QueueOp.pop, QueueOp.push "C", QueueOp.pop,
          QueueOp.pop]
      = some (Queue.empty 2, ["A", "B", "C"])
    ∧ (QueueOp.pushed
          [QueueOp.push "A", QueueOp.push "B", QueueOp.pop, QueueOp.push "C", QueueOp.pop,
            QueueOp.pop]
        = ["A", "B", "C"] ++ (Queue.empty 2 : Queue String).items
      ∧ ((Queue.empty 2 : Queue String).items = [] →
          ["A", "B", "C"]
            = QueueOp.pushed
                [QueueOp.push "A", QueueOp.push "B", QueueOp.pop, QueueOp.push "C", QueueOp.pop,
                  QueueOp.pop])) :=
  ⟨by decide,
    command_queue_fifo 2
      [QueueOp.push "A", QueueOp.push "B", QueueOp.pop, QueueOp.push "C", QueueOp.pop,
        QueueOp.pop]
      (Queue.empty 2) ["A", "B", "C"] (by decide)⟩

/-- C5, as stated, fails: on the sample state no `map_memory` has been called,
yet the default `unmap_memory` of address 4096 is not rejected. -/
theorem unmap_without_map_not_rejected :
    ¬ (∀ (calls : List MemCall) (address : Nat),
        (∀ size : Nat, MemCall.map address size ∉ calls) →
        ∀ (oks : List Bool) (s : State (List String) String Unit) (mem : Unit),
          State.memCalls sampleState () calls = some (oks, s, mem) →
          State.unmap_memory s mem address = none) := by
  intro h
  have h0 := h [] 4096 (by simp) [] sampleState () rfl
  simp [State.unmap_memory] at h0

/-- C5, amended. The default `unmap_memory` rejects no call: for every backend
state, guest memory and address, mapped before or not, it returns normally,
also at the end of any sequence of default `map_memory` and `unmap_memory`
calls. -/
theorem default_unmap_never_rejects {Path CommandList Other MemState : Type}
    (s : State Path CommandList Other) (mem : MemState) (address : Nat) :
    (State.unmap_memory s mem address).isSome = true
    ∧ ∀ calls : List MemCall,
        (State.memCalls s mem (calls ++ [MemCall.unmap address])).isSome = true := by
  refine ⟨rfl, fun calls => ?_⟩
  obtain ⟨oks, h, _⟩ := State.memCalls_default s mem (calls ++ [MemCall.unmap address])
  simp [h]

/-- C6. Each flag setter has set its flag to the argument as soon as it
returns: `set_fullscreen`, `set_surface_sync_state`, `set_stretch_display` and
`stretch_hd_pixel_perfect`. -/
theorem flag_setters_take_effect {Path CommandList Other : Type}
    (s : State Path CommandList Other) (b : Bool) :
    (s.set_fullscreen b).fullscreen = b
    ∧ (s.set_surface_sync_state b).disable_surface_sync = b
    ∧ (s.set_stretch_display b).stretch_the_display_area = b
    ∧ (s.stretch_hd_pixel_perfect b).fullscreen_hd_res_pixel_perfect = b :=
  ⟨rfl, rfl, rfl, rfl⟩

/-- C7. The filter values are 1, 2, 4, 8, 16, each a power of two, distinct
filters have distinct values with bitwise AND zero, and for every collection
of filters the OR of their values is a mask of at most 31 in which a filter
tests non-zero exactly when it belongs to the collection. -/
theorem filter_bits_independent :
    (Filter.all.map Filter.value = [1, 2, 4, 8, 16])
    ∧ (∀ f : Filter, ∃ k : Nat, f.value = 2 ^ k)
    ∧ (∀ f g : Filter, f ≠ g → f.value ≠ g.value ∧ f.value &&& g.value = 0)
    ∧ (∀ (fs : List Filter) (f : Filter), Filter.inMask (Filter.mask fs) f = true ↔ f ∈ fs)
    ∧ (∀ fs : List Filter, Filter.mask fs ≤ 31) := by
  have bound : ∀ fs : List Filter, Filter.mask fs < 32 := by
    intro fs
    induction fs with
    | nil => simp [Filter.mask]
    | cons g fs ih =>
      have hg : g.value < 2 ^ 5 := by cases g <;> decide
      exact Nat.or_lt_two_pow hg ih
  have step : ∀ m : Nat, m < 32 → ∀ g f : Filter,
      (Filter.inMask (g.value ||| m) f = true ↔ (f = g ∨ Filter.inMask m f = true)) := by
    decide
  refine ⟨by decide, ?_, ?_, ?_, fun fs => Nat.le_of_lt_succ (bound fs)⟩
  · intro f
    cases f
    · exact ⟨0, by decide⟩
    · exact ⟨1, by decide⟩
    · exact ⟨2, by decide⟩
    · exact ⟨3, by decide⟩
    · exact ⟨4, by decide⟩
  · decide
  · intro fs f
    induction fs with
    | nil => simp [Filter.mask, Filter.inMask]
    | cons g fs ih =>
      rw [Filter.mask, step (Filter.mask fs) (bound fs) g f, ih, List.mem_cons]

/-- C8. The default `map_memory` returns true and changes neither the backend
state nor the guest memory, the default `unmap_memory` changes neither, and
any sequence of `map_memory` calls each followed by its matching
`unmap_memory` reports success for every map and ends in the state and guest
memory it started from. -/
theorem default_map_memory_trivially_succeeds {Path CommandList Other MemState : Type}
    (s : State Path CommandList Other) (mem : MemState) (address size : Nat) :
    State.map_memory s mem address size = (true, s, mem)
    ∧ State.unmap_memory s mem address = some (s, mem)
    ∧ ∀ regions : List (Nat × Nat),
        State.memCalls s mem (MemCall.paired regions)
          = some (List.replicate regions.length true, s, mem) := by
  refine ⟨rfl, rfl, fun regions => ?_⟩
  induction regions with
  | nil => rfl
  | cons r regions ih =>
    obtain ⟨a, sz⟩ := r
    simp [MemCall.paired, State.memCalls, State.map_memory, State.unmap_memory, ih,
      List.replicate_succ]

end renderer

end Vita3K
